import Mathlib

/-!
Verification development for the Excel AI Assistant repository.

The repository is a browser-hosted Excel add-in (TypeScript/React).  This file
gives a shallow embedding of the parts of the source relevant to the claims:

* `src/services/storageService.ts` (`StorageService`): localStorage-backed
  settings/history store, base64-obscured API key, 50-entry message cap.
* `src/services/llmService.ts` (`LLMService`): provider dispatch (`chat`),
  per-provider HTTP error conversion.
* `src/services/excelService.ts` (`ExcelService`): `buildContextForLLM`
  context serialization and `executeOperations` batch executor.
* `src/components/ChatInterface.tsx`: `extractExcelActions` fenced-block
  parsing and the response-normalization portion of `sendMessage`.

JavaScript dynamic values (parsed JSON, operation objects) are embedded as the
`JsonValue` inductive; JS truthiness, `||` defaulting and field access are
modelled explicitly.  Browser built-ins used by the source (`JSON.parse`,
`JSON.stringify`, `btoa`, `atob`) are modelled as executable Lean functions
(JSON numbers are modelled as integer numerals, which covers every value the
claims exercise).
-/

/-- Embedding of a JavaScript/JSON dynamic value, as produced by `JSON.parse`
and consumed by the untyped (`any`) operation objects in the source. -/
inductive JsonValue where
  | null
  | bool (b : Bool)
  | num (n : Int)
  | str (s : String)
  | arr (elems : List JsonValue)
  | obj (fields : List (String × JsonValue))
deriving Repr

mutual
/-- Decidable equality for `JsonValue` (the `deriving` handler does not support
nested inductives on this toolchain). -/
def JsonValue.decEq : (a b : JsonValue) → Decidable (a = b)
  | .null, .null => .isTrue rfl
  | .bool x, .bool y =>
    if h : x = y then .isTrue (by rw [h]) else .isFalse (fun hh => by cases hh; exact h rfl)
  | .num x, .num y =>
    if h : x = y then .isTrue (by rw [h]) else .isFalse (fun hh => by cases hh; exact h rfl)
  | .str x, .str y =>
    if h : x = y then .isTrue (by rw [h]) else .isFalse (fun hh => by cases hh; exact h rfl)
  | .arr xs, .arr ys =>
    match JsonValue.decEqList xs ys with
    | .isTrue h => .isTrue (by rw [h])
    | .isFalse h => .isFalse (fun hh => by cases hh; exact h rfl)
  | .obj xs, .obj ys =>
    match JsonValue.decEqFields xs ys with
    | .isTrue h => .isTrue (by rw [h])
    | .isFalse h => .isFalse (fun hh => by cases hh; exact h rfl)
  | .null, .bool _ | .null, .num _ | .null, .str _ | .null, .arr _ | .null, .obj _
  | .bool _, .null | .bool _, .num _ | .bool _, .str _ | .bool _, .arr _ | .bool _, .obj _
  | .num _, .null | .num _, .bool _ | .num _, .str _ | .num _, .arr _ | .num _, .obj _
  | .str _, .null | .str _, .bool _ | .str _, .num _ | .str _, .arr _ | .str _, .obj _
  | .arr _, .null | .arr _, .bool _ | .arr _, .num _ | .arr _, .str _ | .arr _, .obj _
  | .obj _, .null | .obj _, .bool _ | .obj _, .num _ | .obj _, .str _ | .obj _, .arr _ =>
    .isFalse (fun hh => by cases hh)

def JsonValue.decEqList : (xs ys : List JsonValue) → Decidable (xs = ys)
  | [], [] => .isTrue rfl
  | [], _ :: _ => .isFalse (fun hh => by cases hh)
  | _ :: _, [] => .isFalse (fun hh => by cases hh)
  | x :: xs, y :: ys =>
    match JsonValue.decEq x y, JsonValue.decEqList xs ys with
    | .isTrue h1, .isTrue h2 => .isTrue (by rw [h1, h2])
    | .isFalse h1, _ => .isFalse (fun hh => by cases hh; exact h1 rfl)
    | _, .isFalse h2 => .isFalse (fun hh => by cases hh; exact h2 rfl)

def JsonValue.decEqFields : (xs ys : List (String × JsonValue)) → Decidable (xs = ys)
  | [], [] => .isTrue rfl
  | [], _ :: _ => .isFalse (fun hh => by cases hh)
  | _ :: _, [] => .isFalse (fun hh => by cases hh)
  | (k1, v1) :: xs, (k2, v2) :: ys =>
    if hk : k1 = k2 then
      match JsonValue.decEq v1 v2, JsonValue.decEqFields xs ys with
      | .isTrue h1, .isTrue h2 => .isTrue (by rw [hk, h1, h2])
      | .isFalse h1, _ => .isFalse (fun hh => by cases hh; exact h1 rfl)
      | _, .isFalse h2 => .isFalse (fun hh => by cases hh; exact h2 rfl)
    else .isFalse (fun hh => by cases hh; exact hk rfl)
end

instance : DecidableEq JsonValue := JsonValue.decEq

/-- Decidable equality for `Except` results (not provided by core). -/
instance {e a : Type} [DecidableEq e] [DecidableEq a] : DecidableEq (Except e a) := fun
  | .ok x, .ok y =>
    if h : x = y then .isTrue (by rw [h]) else .isFalse (fun hh => by cases hh; exact h rfl)
  | .error x, .error y =>
    if h : x = y then .isTrue (by rw [h]) else .isFalse (fun hh => by cases hh; exact h rfl)
  | .ok _, .error _ => .isFalse (fun hh => by cases hh)
  | .error _, .ok _ => .isFalse (fun hh => by cases hh)

/-- JS truthiness of a value (`if (v)`): `null`, `false`, `0` and `""` are
falsy; arrays and objects are always truthy. -/
def jsTruthy : JsonValue → Bool
  | .null => false
  | .bool b => b
  | .num n => n != 0
  | .str s => s ≠ ""
  | .arr _ => true
  | .obj _ => true

/-- JS property access `v.name`: `none` models `undefined` (absent property or
access on a non-object primitive).  JSON objects with duplicate keys keep the
last occurrence, hence the lookup on the reversed field list. -/
def getField : JsonValue → String → Option JsonValue
  | .obj fields, k => (fields.reverse.find? (fun p => p.1 = k)).map (fun p => p.2)
  | _, _ => none

/-- JS `x || d` on a possibly-undefined value: the value if present and truthy,
otherwise the default. -/
def jsOr (v : Option JsonValue) (d : JsonValue) : JsonValue :=
  match v with
  | some x => if jsTruthy x then x else d
  | none => d

/-- JS strict comparison `x !== false` on a possibly-undefined value. -/
def jsStrictNeFalse (v : Option JsonValue) : Bool :=
  if v = some (JsonValue.bool false) then false else true

/-- The whitespace class of the JS regex `\s` / `String.prototype.trim`
(restricted to the ASCII members, which is all the source ever produces). -/
def isJsWs (c : Char) : Bool :=
  c = ' ' || c = '\t' || c = '\n' || c = '\r' || c = Char.ofNat 11 || c = Char.ofNat 12

/-- Value of a hexadecimal digit, for `\uXXXX` string escapes. -/
def hexVal (c : Char) : Option Nat :=
  if c.isDigit then some (c.toNat - 48)
  else if 'a' ≤ c ∧ c ≤ 'f' then some (c.toNat - 97 + 10)
  else if 'A' ≤ c ∧ c ≤ 'F' then some (c.toNat - 65 + 10)
  else none

/-- JSON string-literal body parser (model of the string part of `JSON.parse`):
consumes characters after the opening quote up to the closing quote, handling
the standard escapes.  Returns the decoded string and the rest of the input. -/
def parseJsonStringAux : List Char → List Char → Option (String × List Char)
  | acc, '"' :: rest => some (String.mk acc.reverse, rest)
  | acc, '\\' :: '"' :: rest => parseJsonStringAux ('"' :: acc) rest
  | acc, '\\' :: '\\' :: rest => parseJsonStringAux ('\\' :: acc) rest
  | acc, '\\' :: '/' :: rest => parseJsonStringAux ('/' :: acc) rest
  | acc, '\\' :: 'n' :: rest => parseJsonStringAux ('\n' :: acc) rest
  | acc, '\\' :: 't' :: rest => parseJsonStringAux ('\t' :: acc) rest
  | acc, '\\' :: 'r' :: rest => parseJsonStringAux ('\r' :: acc) rest
  | acc, '\\' :: 'b' :: rest => parseJsonStringAux (Char.ofNat 8 :: acc) rest
  | acc, '\\' :: 'f' :: rest => parseJsonStringAux (Char.ofNat 12 :: acc) rest
  | acc, '\\' :: 'u' :: h1 :: h2 :: h3 :: h4 :: rest =>
    match hexVal h1, hexVal h2, hexVal h3, hexVal h4 with
    | some a, some b, some c, some d =>
      parseJsonStringAux (Char.ofNat (a * 4096 + b * 256 + c * 16 + d) :: acc) rest
    | _, _, _, _ => none
  | _, '\\' :: _ => none
  | acc, c :: rest => parseJsonStringAux (c :: acc) rest
  | _, [] => none

/-- Digit-run consumer for JSON integer numerals. -/
def parseDigits : Nat → List Char → Nat × List Char
  | acc, c :: rest => if c.isDigit then parseDigits (acc * 10 + (c.toNat - 48)) rest else (acc, c :: rest)
  | acc, [] => (acc, [])

mutual
/-- Model of `JSON.parse` on a single value (fuel-indexed recursive descent).
Numbers are restricted to (optionally signed) integer numerals; all values the
repository's protocol exchanges are covered. -/
def parseJsonValue : Nat → List Char → Option (JsonValue × List Char)
  | 0, _ => none
  | fuel + 1, s =>
    let s := s.dropWhile isJsWs
    match s with
    | 'n' :: 'u' :: 'l' :: 'l' :: rest => some (.null, rest)
    | 't' :: 'r' :: 'u' :: 'e' :: rest => some (.bool true, rest)
    | 'f' :: 'a' :: 'l' :: 's' :: 'e' :: rest => some (.bool false, rest)
    | '"' :: rest => (parseJsonStringAux [] rest).map (fun p => (.str p.1, p.2))
    | '-' :: c :: rest =>
      if c.isDigit then
        let p := parseDigits 0 (c :: rest)
        some (.num (-(p.1 : Int)), p.2)
      else none
    | c :: rest =>
      if c.isDigit then
        let p := parseDigits 0 (c :: rest)
        some (.num (p.1 : Int), p.2)
      else if c = '[' then
        parseJsonArrayItems fuel [] (rest.dropWhile isJsWs)
      else if c = Char.ofNat 123 then
        parseJsonObjFields fuel [] (rest.dropWhile isJsWs)
      else none
    | [] => none

/-- Items of a JSON array (after the opening bracket / after a comma). -/
def parseJsonArrayItems : Nat → List JsonValue → List Char → Option (JsonValue × List Char)
  | 0, _, _ => none
  | fuel + 1, acc, s =>
    match s with
    | ']' :: rest => some (.arr acc.reverse, rest)
    | _ =>
      match parseJsonValue fuel s with
      | none => none
      | some (v, rest) =>
        match rest.dropWhile isJsWs with
        | ',' :: rest2 => parseJsonArrayItems fuel (v :: acc) (rest2.dropWhile isJsWs)
        | ']' :: rest2 => some (.arr (v :: acc).reverse, rest2)
        | _ => none

/-- Fields of a JSON object (after the opening brace / after a comma). -/
def parseJsonObjFields : Nat → List (String × JsonValue) → List Char → Option (JsonValue × List Char)
  | 0, _, _ => none
  | fuel + 1, acc, s =>
    match s with
    | '"' :: rest =>
      match parseJsonStringAux [] rest with
      | none => none
      | some (key, rest2) =>
        match rest2.dropWhile isJsWs with
        | ':' :: rest3 =>
          match parseJsonValue fuel rest3 with
          | none => none
          | some (v, rest4) =>
            match rest4.dropWhile isJsWs with
            | ',' :: rest5 => parseJsonObjFields fuel ((key, v) :: acc) (rest5.dropWhile isJsWs)
            | c :: rest5 => if c = Char.ofNat 125 then some (.obj (acc.reverse ++ [(key, v)]), rest5) else none
            | [] => none
        | _ => none
    | c :: rest => if c = Char.ofNat 125 then some (.obj acc.reverse, rest) else none
    | [] => none
end

/-- Model of `JSON.parse` on a whole input: parse one value and require only
trailing whitespace; any failure models the `SyntaxError` the built-in throws
(which the callers in the source catch). -/
def jsonParseChars (s : List Char) : Option JsonValue :=
  match parseJsonValue (2 * s.length + 8) s with
  | some (v, rest) => if rest.dropWhile isJsWs = [] then some v else none
  | none => none

example : jsonParseChars "\x7b\"operations\": [\x7b\"action\": \"setCellValue\", \"address\": \"A1\", \"value\": \"5\"\x7d]\x7d".data =
    some (.obj [("operations", .arr [.obj [("action", .str "setCellValue"), ("address", .str "A1"), ("value", .str "5")]])]) := by
  decide

example : jsonParseChars "not-json".data = none := by decide
example : jsonParseChars "[1, -2, true, null]".data = some (.arr [.num 1, .num (-2), .bool true, .null]) := by decide

/-! ## Fenced-block extraction (`ChatInterface.tsx`)

`extractExcelActions` matches the regex `/```excel-json\s*([\s\S]*?)```/`
against the assistant text and `JSON.parse`s the capture; `sendMessage`
strips the block for display with `/```excel-json[\s\S]*?```/` → `''`.

The leftmost-match regex semantics reduce to: find the first occurrence of
the opening tag, then the first closing ` ``` ` after it (later opening tags
cannot produce a match when the first one cannot, because every opening tag
itself starts with ` ``` `). -/

/-- Split a character list at the first occurrence of `pat`, returning the
part before the occurrence and the part after it. -/
def splitFirst (pat : List Char) : List Char → Option (List Char × List Char)
  | [] => if pat.isPrefixOf ([] : List Char) then some ([], []) else none
  | c :: rest =>
    if pat.isPrefixOf (c :: rest) then some ([], (c :: rest).drop pat.length)
    else (splitFirst pat rest).map (fun p => (c :: p.1, p.2))

/-- The opening tag of the fenced block convention. -/
def fenceOpen : List Char := "```excel-json".data

/-- The closing fence. -/
def fenceClose : List Char := "```".data

/-- `extractExcelActions` (ChatInterface.tsx lines 32-42): regex-match the
fenced `excel-json` block, and `JSON.parse` the capture inside a
`try`/`catch` that turns any parse failure into `null` (`none`).  The
`if (match && match[1])` guard makes an empty capture group fall through to
`null` as well. -/
def extractExcelActions (content : String) : Option JsonValue :=
  match splitFirst fenceOpen content.data with
  | none => none
  | some (_, rest) =>
    let afterWs := rest.dropWhile isJsWs
    match splitFirst fenceClose afterWs with
    | none => none
    | some (inner, _) =>
      if inner = [] then none else jsonParseChars inner

/-- The display-cleaning `content.replace(/```excel-json[\s\S]*?```/, '')`:
remove the first fenced block (from the opening tag to the first closing
fence after it); leave the string unchanged when the regex does not match. -/
def stripExcelJson (content : String) : String :=
  match splitFirst fenceOpen content.data with
  | none => content
  | some (pre, rest) =>
    match splitFirst fenceClose rest with
    | none => content
    | some (_, post) => String.mk (pre ++ post)

/-- JS `String.prototype.trim()`. -/
def jsTrim (s : String) : String :=
  String.mk (((s.data.dropWhile isJsWs).reverse.dropWhile isJsWs).reverse)

/-- Whether `pat` occurs as a substring of `s` (used to state that displayed
text still contains a fenced block). -/
def containsSub (pat s : String) : Bool :=
  (splitFirst pat.data s.data).isSome

example : extractExcelActions "hi ```excel-json \x7b\"operations\": []\x7d``` bye" =
    some (.obj [("operations", .arr [])]) := by decide
example : extractExcelActions "hi ```excel-json nope``` bye" = none := by decide
example : stripExcelJson "hi ```excel-json x``` bye" = "hi  bye" := by decide

/-! ## Response normalization (`sendMessage`, ChatInterface.tsx lines 145-181)

The tool-calling variant of `ChatInterface.tsx` first turns native tool
invocations into a pending batch, then runs the fenced-block fallback, whose
`setPendingActions(actionsData.operations)` overwrites any batch set from
tool calls. -/

/-- A native tool invocation as normalized by the LLM service
(`{ name, arguments }`, arguments already JSON-parsed). -/
structure ToolCall where
  name : String
  arguments : JsonValue
deriving Repr, DecidableEq

/-- The `LLMResponse` interface of `llmService.ts`: `{ text, toolCalls? }`. -/
structure LLMResponse where
  text : String
  toolCalls : Option (List ToolCall)
deriving Repr, DecidableEq

/-- The callback of `toolCalls.flatMap` in `sendMessage` (lines 150-157):
`execute_excel_operations` invocations contribute `tc.arguments.operations
|| []`; other names contribute `[]`.  JS `flatMap` treats a non-array callback
result as a single element. -/
def toolCallContribution (tc : ToolCall) : List JsonValue :=
  if tc.name = "execute_excel_operations" then
    match jsOr (getField tc.arguments "operations") (.arr []) with
    | .arr xs => xs
    | v => [v]
  else []

/-- Default assistant text substituted when tool calls produced operations but
the model returned no prose. -/
def preparedMsgToolCalls : String := "I have prepared the changes for you. Please review and apply them."

/-- Default assistant text substituted when stripping the fenced block leaves
the message empty. -/
def preparedMsgFence : String := "I have prepared the changes for you."

/-- Result of normalizing one provider response: the displayed assistant text
and the pending operation batch (`setPendingActions` state; initialized to the
empty batch by `setPendingActions([])` at the start of `sendMessage`). -/
structure Normalized where
  content : String
  pending : JsonValue
deriving Repr, DecidableEq

/-- The response-normalization portion of `sendMessage` (ChatInterface.tsx
lines 145-172): native tool invocations first, then the fenced-block fallback,
which overwrites the pending batch and strips + trims the displayed text when
the parsed block has a truthy `operations` field. -/
def sendMessageNormalize (response : LLMResponse) : Normalized :=
  let content0 := response.text
  let tcs := response.toolCalls.getD []
  let nativeOps := tcs.flatMap toolCallContribution
  let step1 : Normalized :=
    if response.toolCalls.isSome ∧ tcs.length > 0 ∧ nativeOps.length > 0 then
      { content := if content0 = "" then preparedMsgToolCalls else content0
        pending := .arr nativeOps }
    else { content := content0, pending := .arr [] }
  match extractExcelActions step1.content with
  | some actionsData =>
    match getField actionsData "operations" with
    | some opsV =>
      if jsTruthy opsV then
        let stripped := jsTrim (stripExcelJson step1.content)
        { content := if stripped = "" then preparedMsgFence else stripped
          pending := opsV }
      else step1
    | none => step1
  | none => step1

/-! ## Base64 and the storage service (`storageService.ts`)

`saveApiKey` stores `btoa(key)` under `excel_ai_api_key`; `getApiKey`
reads it back and returns `atob(encoded)`, or `null` when the stored value
is absent or falsy (the empty string!).  `saveMessages` persists
`JSON.stringify(messages.slice(-50))` under `excel_ai_messages`.

`btoa`/`atob` are the browser base64 built-ins; they are modelled on byte
lists (a Latin-1 string is its list of code points `< 256`; `btoa` throws on
anything larger, which `saveApiKey` catches, leaving the store unchanged). -/

/-- The base64 alphabet used by `btoa`/`atob`. -/
def b64Chars : List Char :=
  "ABCDEFGHIJKLMNOPQRSTUVWXYZabcdefghijklmnopqrstuvwxyz0123456789+/".data

/-- Character of a sextet value (< 64). -/
def sextetChar (n : Nat) : Char := b64Chars.getD n '?'

/-- Sextet value of a base64 character. -/
def sextetVal (c : Char) : Nat := b64Chars.findIdx (fun x => x = c)

/-- Model of `btoa`: base64-encode a byte list, three bytes per four output
characters, padding the final partial chunk with `=`. -/
def btoaBytes : List Nat → List Char
  | [] => []
  | [b0] => [sextetChar (b0 / 4), sextetChar (b0 % 4 * 16), '=', '=']
  | [b0, b1] => [sextetChar (b0 / 4), sextetChar (b0 % 4 * 16 + b1 / 16),
                 sextetChar (b1 % 16 * 4), '=']
  | b0 :: b1 :: b2 :: rest =>
    sextetChar (b0 / 4) :: sextetChar (b0 % 4 * 16 + b1 / 16) ::
    sextetChar (b1 % 16 * 4 + b2 / 64) :: sextetChar (b2 % 64) :: btoaBytes rest

/-- Model of `atob`: base64-decode four characters per three output bytes,
honoring `=` padding in the final chunk. -/
def atobChars : List Char → List Nat
  | c0 :: c1 :: c2 :: c3 :: rest =>
    let v0 := sextetVal c0
    let v1 := sextetVal c1
    if c2 = '=' then [v0 * 4 + v1 / 16]
    else
      let v2 := sextetVal c2
      if c3 = '=' then [v0 * 4 + v1 / 16, v1 % 16 * 16 + v2 / 4]
      else (v0 * 4 + v1 / 16) :: (v1 % 16 * 16 + v2 / 4) ::
           (v2 % 4 * 64 + sextetVal c3) :: atobChars rest
  | _ => []

theorem sextetVal_sextetChar : ∀ n : Fin 64, sextetVal (sextetChar n.1) = n.1 := by decide

theorem sextetChar_ne_pad : ∀ n : Fin 64, sextetChar n.1 ≠ '=' := by decide

theorem sextetVal_sextetChar_of_lt {n : Nat} (h : n < 64) : sextetVal (sextetChar n) = n :=
  sextetVal_sextetChar ⟨n, h⟩

theorem sextetChar_ne_pad_of_lt {n : Nat} (h : n < 64) : sextetChar n ≠ '=' :=
  sextetChar_ne_pad ⟨n, h⟩

/-- Quotient of a packed sextet: `(a * k + c) / k = a` when `c < k`. -/
theorem chunkDiv (a c k : Nat) (hc : c < k) : (a * k + c) / k = a := by
  have hk : 0 < k := Nat.pos_of_ne_zero (by omega)
  rw [add_comm, Nat.add_mul_div_right c a hk, Nat.div_eq_of_lt hc, Nat.zero_add]

/-- Remainder of a packed sextet: `(a * k + c) % k = c` when `c < k`. -/
theorem chunkMod (a c k : Nat) (hc : c < k) : (a * k + c) % k = c := by
  rw [add_comm, Nat.add_mul_mod_self_right, Nat.mod_eq_of_lt hc]

/-- `atob` inverts `btoa` on byte lists (each byte `< 256`, i.e. a Latin-1
string). -/
theorem atobChars_btoaBytes : ∀ (bs : List Nat), (∀ b ∈ bs, b < 256) →
    atobChars (btoaBytes bs) = bs := by
  intro bs
  induction bs using btoaBytes.induct with
  | case1 => intro _; rfl
  | case2 b0 =>
    intro h
    have hb0 : b0 < 256 := h b0 (by simp)
    have h1 : b0 / 4 < 64 := by omega
    have h2 : b0 % 4 * 16 < 64 := by omega
    simp only [btoaBytes, atobChars]
    rw [if_pos trivial, sextetVal_sextetChar_of_lt h1, sextetVal_sextetChar_of_lt h2]
    rw [show b0 % 4 * 16 = b0 % 4 * 16 + 0 by omega, chunkDiv _ 0 16 (by omega)]
    simp only [List.cons.injEq, and_true]
    omega
  | case3 b0 b1 =>
    intro h
    have hb0 : b0 < 256 := h b0 (by simp)
    have hb1 : b1 < 256 := h b1 (by simp)
    have h1 : b0 / 4 < 64 := by omega
    have h2 : b0 % 4 * 16 + b1 / 16 < 64 := by omega
    have h3 : b1 % 16 * 4 < 64 := by omega
    simp only [btoaBytes, atobChars]
    rw [if_neg (sextetChar_ne_pad_of_lt h3), if_pos trivial,
      sextetVal_sextetChar_of_lt h1, sextetVal_sextetChar_of_lt h2,
      sextetVal_sextetChar_of_lt h3,
      chunkDiv (b0 % 4) (b1 / 16) 16 (by omega), chunkMod (b0 % 4) (b1 / 16) 16 (by omega),
      show b1 % 16 * 4 = b1 % 16 * 4 + 0 by omega, chunkDiv _ 0 4 (by omega)]
    simp only [List.cons.injEq, and_true]
    exact ⟨by omega, by omega⟩
  | case4 b0 b1 b2 rest ih =>
    intro h
    have hb0 : b0 < 256 := h b0 (by simp)
    have hb1 : b1 < 256 := h b1 (by simp)
    have hb2 : b2 < 256 := h b2 (by simp)
    have h1 : b0 / 4 < 64 := by omega
    have h2 : b0 % 4 * 16 + b1 / 16 < 64 := by omega
    have h3 : b1 % 16 * 4 + b2 / 64 < 64 := by omega
    have h4 : b2 % 64 < 64 := by omega
    have hrest : ∀ b ∈ rest, b < 256 := fun b hb => h b (by simp [hb])
    simp only [btoaBytes, atobChars]
    rw [if_neg (sextetChar_ne_pad_of_lt h3), if_neg (sextetChar_ne_pad_of_lt h4),
      sextetVal_sextetChar_of_lt h1, sextetVal_sextetChar_of_lt h2,
      sextetVal_sextetChar_of_lt h3, sextetVal_sextetChar_of_lt h4,
      chunkDiv (b0 % 4) (b1 / 16) 16 (by omega), chunkMod (b0 % 4) (b1 / 16) 16 (by omega),
      chunkDiv (b1 % 16) (b2 / 64) 4 (by omega), chunkMod (b1 % 16) (b2 / 64) 4 (by omega),
      ih hrest]
    simp only [List.cons.injEq, and_true]
    exact ⟨by omega, by omega, by omega⟩

/-! ### localStorage and `StorageService` -/

/-- A browser `localStorage` object: string keys to string values. -/
structure LocalStorage where
  entries : List (String × String)
deriving Repr, DecidableEq

/-- `localStorage.getItem(k)` (`none` models `null`). -/
def LocalStorage.getItem (store : LocalStorage) (k : String) : Option String :=
  (store.entries.find? (fun p => p.1 = k)).map (fun p => p.2)

/-- `localStorage.setItem(k, v)`. -/
def LocalStorage.setItem (store : LocalStorage) (k v : String) : LocalStorage :=
  ⟨(k, v) :: store.entries.filter (fun p => p.1 ≠ k)⟩

/-- `localStorage.removeItem(k)`. -/
def LocalStorage.removeItem (store : LocalStorage) (k : String) : LocalStorage :=
  ⟨store.entries.filter (fun p => p.1 ≠ k)⟩

/-- `STORAGE_KEYS.API_KEY`. -/
def apiKeyStorageKey : String := "excel_ai_api_key"

/-- `STORAGE_KEYS.MESSAGES`. -/
def messagesStorageKey : String := "excel_ai_messages"

/-- Hex digit (lower case) for `\uXXXX` output escapes. -/
def hexDigit (n : Nat) : Char :=
  if n < 10 then Char.ofNat (48 + n) else Char.ofNat (97 + (n - 10))

/-- JSON escape of one character, as produced by `JSON.stringify`. -/
def escapeJsonChar (c : Char) : List Char :=
  if c = '"' then ['\\', '"']
  else if c = '\\' then ['\\', '\\']
  else if c = '\n' then ['\\', 'n']
  else if c = '\t' then ['\\', 't']
  else if c = '\r' then ['\\', 'r']
  else if c.toNat = 8 then ['\\', 'b']
  else if c.toNat = 12 then ['\\', 'f']
  else if c.toNat < 32 then ['\\', 'u', '0', '0', hexDigit (c.toNat / 16), hexDigit (c.toNat % 16)]
  else [c]

/-- JSON string literal for `s`, as produced by `JSON.stringify`. -/
def quoteJson (s : String) : String :=
  "\"" ++ String.mk ((s.data.map escapeJsonChar).flatten) ++ "\""

mutual
/-- Model of `JSON.stringify` (no indentation argument, as in the source). -/
def jsonStringify : JsonValue → String
  | .null => "null"
  | .bool b => if b then "true" else "false"
  | .num n => toString n
  | .str s => quoteJson s
  | .arr xs => "[" ++ jsonStringifyList xs ++ "]"
  | .obj fs => "\x7b" ++ jsonStringifyFields fs ++ "\x7d"

/-- Comma-separated serialization of array elements. -/
def jsonStringifyList : List JsonValue → String
  | [] => ""
  | [x] => jsonStringify x
  | x :: y :: rest => jsonStringify x ++ "," ++ jsonStringifyList (y :: rest)

/-- Comma-separated serialization of object fields. -/
def jsonStringifyFields : List (String × JsonValue) → String
  | [] => ""
  | [(k, v)] => quoteJson k ++ ":" ++ jsonStringify v
  | (k, v) :: f :: rest => quoteJson k ++ ":" ++ jsonStringify v ++ "," ++ jsonStringifyFields (f :: rest)
end

/-- `StorageService.saveApiKey` (storageService.ts lines 25-33): store
`btoa(key)` under the API-key storage key; the `try`/`catch` turns a `btoa`
failure (some code point `≥ 256`) into a logged no-op. -/
def saveApiKey (store : LocalStorage) (key : List Nat) : LocalStorage :=
  if key.all (fun b => b < 256) then
    store.setItem apiKeyStorageKey (String.mk (btoaBytes key))
  else store

/-- `StorageService.getApiKey` (storageService.ts lines 38-47): read the
stored value; `if (!encoded) return null` makes both an absent entry and an
empty-string entry yield `null`; otherwise return `atob(encoded)`. -/
def getApiKey (store : LocalStorage) : Option (List Nat) :=
  match store.getItem apiKeyStorageKey with
  | none => none
  | some encoded => if encoded = "" then none else some (atobChars encoded.data)

/-- `StorageService.hasApiKey`: `!!localStorage.getItem(...)`. -/
def hasApiKey (store : LocalStorage) : Bool :=
  match store.getItem apiKeyStorageKey with
  | none => false
  | some s => s ≠ ""

/-- JS `xs.slice(-n)`: the last `n` elements (the whole list when it has at
most `n`). -/
def jsSliceNeg (n : Nat) (xs : List α) : List α := xs.drop (xs.length - n)

/-- `StorageService.saveMessages` (storageService.ts lines 105-113): persist
`JSON.stringify(messages.slice(-50))`; the storage model cannot overflow, so
the `try`/`catch` has no failing branch. -/
def saveMessages (store : LocalStorage) (messages : List JsonValue) : LocalStorage :=
  store.setItem messagesStorageKey (jsonStringify (.arr (jsSliceNeg 50 messages)))

/-! ### `LLMService` (llmService.ts, tool-calling variant) -/

/-- The `ChatMessage` interface (`role` is one of `system`/`user`/`assistant`). -/
structure ChatMessage where
  role : String
  content : String
deriving Repr, DecidableEq

/-- The `Settings` shape returned by `StorageService.getSettings()`:
`apiKey` is `string | null`. -/
structure Settings where
  apiKey : Option String
  provider : String
  model : String
deriving Repr, DecidableEq

/-- `EXCEL_SYSTEM_PROMPT` (llmService.ts lines 107-144). -/
def EXCEL_SYSTEM_PROMPT : String :=
  "You are the World\x27s Best Excel AI Assistant. You are an elite analyst, data scientist, and executive dashboard designer embedded in a Microsoft Excel add-in.\n\nGOAL: Provide the most professional, well-formatted, and insightful Excel solutions possible. You don\x27t just \"do\" Excel; you create Executive-Grade spreadsheets.\n\nCAPABILITIES:\n- Advanced Data Analysis: Identify trends, correlations, and outliers.\n- Executive Formatting: Use professional color palettes, proper alignment, and data validation.\n- Complex Modeling: Build scalable models with clear assumptions and summary sections.\n- Tool Usage: You have direct access to tools that manipulate cells, sheets, pivot tables, and charts.\n\nCRITICAL EXPERT GUIDELINES:\n\n1. CONTEXTUAL INTELLIGENCE: \n   - Before acting, understand the user\x27s industry (Finance, Healthcare, Sales, etc.).\n   - If they ask for a \"Sales Table\", don\x27t just list columns. Include Month-over-Month growth, Total summaries, and percentage of totals.\n   - Use Data Bars or Conditional Formatting suggestions in your text to guide them.\n\n2. EXECUTIVE DESIGN PRINCIPLES:\n   - HEADERS: Use bold text, specific fill colors (Slate, Deep Blue, or Dark Grey), and white font for headers.\n   - ALTERNATING ROWS: Suggest or implement banded rows for readability.\n   - NUMBER TYPES: Always suggest/apply proper formatting (Currency ($), Percentages (%), or 1,000 separators).\n   - ALIGNMENT: Right-align numbers, left-align text. Centre-align headers.\n\n3. DATA INTERNALS & BEST PRACTICES:\n   - Use exact Excel formula syntax.\n   - Reference cells explicitly (e.g., \"See result in B15\").\n   - Use Excel Tables (ListObject) for structured data to enable easy filtering.\n   - Create Pivot Tables for complex aggregations.\n\n4. BEYOND THE BASICS:\n   - When creating charts, pick the BEST type for the data (Line for time series, Pie for parts-of-a-whole, Bar for comparisons).\n   - Add a \"Summary\" or \"Dashboard\" sheet if the data is large.\n   - Use helper columns to make complex calculations readable.\n\n5. ERROR PROTECTION:\n   - Warn if an operation might overwrite existing data.\n   - Check for #DIV/0! or #N/A errors in your formula suggestions and use IFERROR.\n"

/-- An abstraction of the HTTP reply a provider backend returns for one call:
success flag and status, the backend error-payload message field (`none` when
the error body is absent or fails to parse — the `.catch(() => ({}))` case),
and the already-decoded success payload. -/
structure ProviderReply where
  ok : Bool
  status : Nat
  errorMessage : Option String
  text : String
  toolCalls : Option (List ToolCall)
deriving Repr, DecidableEq

/-- The `error.error?.message || fallback` / `error.error || fallback`
conversion applied by every adapter on a non-success response. -/
def backendMessageOr (errorMessage : Option String) (fallback : String) : String :=
  match errorMessage with
  | some m => if m = "" then fallback else m
  | none => fallback

/-- Request URL of the OpenRouter adapter. -/
def openRouterUrl : String := "https://openrouter.ai/api/v1/chat/completions"

/-- Request URL of the Gemini adapter (query-string key elided). -/
def geminiUrl : String :=
  "https://generativelanguage.googleapis.com/v1beta/models/gemini-3-flash-preview:generateContent"

/-- Request URL of the HuggingFace adapter. -/
def huggingFaceUrl : String :=
  "https://api-inference.huggingface.co/models/meta-llama/Llama-3.2-1B-Instruct"

/-- `LLMService.callOpenRouter` (llmService.ts lines 191-230): one `fetch`;
non-success status becomes `Error(error.error?.message || 'OpenRouter API
error: <status>')`; success yields `message.content || ''` plus the mapped
`tool_calls` (or `undefined`).  The first component lists the network
requests issued. -/
def callOpenRouter (messages : List ChatMessage) (apiKey model : String)
    (reply : ProviderReply) : List String × Except String LLMResponse :=
  ([openRouterUrl],
   if reply.ok then .ok { text := reply.text, toolCalls := reply.toolCalls }
   else .error (backendMessageOr reply.errorMessage ("OpenRouter API error: " ++ toString reply.status)))

/-- The interpolated conversation prompt built by `callGemini` and
`callHuggingFace`. -/
def buildTextPrompt (messages : List ChatMessage) (excelContext : Option String) : String :=
  EXCEL_SYSTEM_PROMPT
    ++ (match excelContext with | some c => "\n\n" ++ c | none => "")
    ++ "\n\nConversation:\n"
    ++ String.join (messages.map (fun m =>
        (if m.role = "user" then "User" else "Assistant") ++ ": " ++ m.content ++ "\n"))
    ++ "Assistant:"

/-- `LLMService.callGemini` (llmService.ts lines 235-305): one `fetch` with
the interpolated prompt; non-success status becomes `Error(error.error?.message
|| 'Gemini API error: <status>')`; success accumulates part text and
function calls, returning the calls only when at least one is present. -/
def callGemini (messages : List ChatMessage) (apiKey : String)
    (excelContext : Option String) (reply : ProviderReply) :
    List String × Except String LLMResponse :=
  ([geminiUrl ++ "?key=" ++ apiKey],
   if reply.ok then
     .ok { text := reply.text
           toolCalls :=
             if (reply.toolCalls.getD []).length > 0 then some (reply.toolCalls.getD []) else none }
   else .error (backendMessageOr reply.errorMessage ("Gemini API error: " ++ toString reply.status)))

/-- `LLMService.callHuggingFace` (llmService.ts lines 310-359): one `fetch`;
non-success status becomes `Error(error.error || 'HuggingFace API error:
<status>')`; success yields a plain string. -/
def callHuggingFace (messages : List ChatMessage) (apiKey : String)
    (excelContext : Option String) (reply : ProviderReply) :
    List String × Except String String :=
  ([huggingFaceUrl],
   if reply.ok then .ok reply.text
   else .error (backendMessageOr reply.errorMessage ("HuggingFace API error: " ++ toString reply.status)))

/-- The missing-credential error message thrown by `chat`. -/
def missingKeyMsg : String := "Please configure your API key in Settings"

/-- `LLMService.chat` (llmService.ts lines 155-186): read settings; throw
before any network traffic when no API key is configured (`!settings.apiKey`,
so `null` and the empty string both fail); otherwise dispatch on the provider
tag.  The second component lists the network requests issued. -/
def chat (settings : Settings) (messages : List ChatMessage)
    (excelContext : Option String) (reply : ProviderReply) :
    Except String LLMResponse × List String :=
  if settings.apiKey = none ∨ settings.apiKey = some "" then
    (.error missingKeyMsg, [])
  else
    let apiKey := settings.apiKey.getD ""
    let fullMessages : List ChatMessage :=
      { role := "system"
        content := EXCEL_SYSTEM_PROMPT ++
          (match excelContext with | some c => "\n\n" ++ c | none => "") } :: messages
    match settings.provider with
    | "openrouter" =>
      let r := callOpenRouter fullMessages apiKey settings.model reply
      (r.2, r.1)
    | "gemini" =>
      let r := callGemini messages apiKey excelContext reply
      (r.2, r.1)
    | "huggingface" =>
      let r := callHuggingFace messages apiKey excelContext reply
      ((r.2.map (fun t => { text := t, toolCalls := none })), r.1)
    | p => (.error ("Unknown provider: " ++ p), [])

/-! ### JS string conversion (template literals and `Array.prototype.join`) -/

mutual
/-- JS `String(v)` / template-literal interpolation. -/
def jsToString : JsonValue → String
  | .null => "null"
  | .bool b => if b then "true" else "false"
  | .num n => toString n
  | .str s => s
  | .arr xs => jsJoinList xs
  | .obj _ => "[object Object]"

/-- `Array.prototype.join(",")` over elements (`toString` of an array). -/
def jsJoinList : List JsonValue → String
  | [] => ""
  | [x] => jsJoinElem x
  | x :: y :: rest => jsJoinElem x ++ "," ++ jsJoinList (y :: rest)

/-- One element under `join`: `null`/`undefined` render as the empty string
(unlike `String(null)`). -/
def jsJoinElem : JsonValue → String
  | .null => ""
  | .bool b => if b then "true" else "false"
  | .num n => toString n
  | .str s => s
  | .arr xs => jsJoinList xs
  | .obj _ => "[object Object]"
end

/-- `Array.prototype.join(sep)` with an arbitrary separator. -/
def jsJoinWith (sep : String) : List JsonValue → String
  | [] => ""
  | [x] => jsJoinElem x
  | x :: y :: rest => jsJoinElem x ++ sep ++ jsJoinWith sep (y :: rest)

/-- Template-literal interpolation of a possibly-undefined value
(`${undefined}` renders as `"undefined"`). -/
def jsTemplateOpt : Option JsonValue → String
  | none => "undefined"
  | some v => jsToString v

/-- Truthiness of a possibly-undefined value. -/
def jsTruthyOpt : Option JsonValue → Bool
  | none => false
  | some v => jsTruthy v

/-! ### `ExcelService.executeOperations` (excelService.ts lines 253-413)

The executor runs inside one `Excel.run` batch on the active worksheet.  The
host is modelled as a trace: every Office.js proxy mutation issued by the
switch body becomes one queued `MutCall`; the single `context.sync()` after
the loop and the initial `getActiveWorksheet()` read appear as separate
`HostCall` constructors, so the loop body cannot emit a synchronization by
type.

Office.js error timing is modelled faithfully: `getRange`/`getItem` never
throw synchronously — they build proxies, and a mutation queued with an
unusable argument (malformed or missing range address, non-string sheet name)
is recorded as an invalid queued call whose error materializes only when the
trailing `context.sync()` runs, *outside* every per-operation `try`/`catch`,
rejecting the whole `Excel.run` batch.  Only genuine synchronous JavaScript
errors — the `TypeError` from reading `op.format.bold` when `op.format` is
absent — are raised inside the loop where the per-operation `catch` can see
them. -/

/-- One Office.js proxy mutation (or console log) queued by the executor's
loop body.  `invalidRange`/`invalidSheetItem` record a mutation issued through
a proxy built from an unusable argument; its error surfaces at `sync`. -/
inductive MutCall where
  | setValues (address : String) (value : Option JsonValue)
  | setFormulas (address : String) (formula : Option JsonValue)
  | setFontBold (address : String) (b : JsonValue)
  | setFillColor (address : String) (c : JsonValue)
  | setFontColor (address : String) (c : JsonValue)
  | tableAdd (address : String)
  | tableSetName (address : String) (name : JsonValue)
  | chartAdd (chartType : JsonValue) (address : String) (seriesBy : String)
  | chartSetTitle (title : JsonValue)
  | worksheetAdd (name : Option JsonValue)
  | worksheetActivate (name : Option JsonValue)
  | worksheetDelete (name : String)
  | autofitColumns (address : Option String)
  | sortApply (address : String) (key : JsonValue) (ascending : Bool)
      (matchCase hasHeaders orientation : JsonValue)
  | autoFilterApply (address : String)
  | pivotTableAdd (op : JsonValue)
  | rangeInsert (address : String) (shift : String)
  | rangeDelete (address : String) (shift : String)
  | worksheetRename (target : JsonValue) (newName : Option JsonValue)
  | worksheetSetVisibility (name : String) (visibility : String)
  | invalidRange (arg : Option JsonValue)
  | invalidSheetItem (arg : Option JsonValue)
  | logError (msg : String)
deriving Repr, DecidableEq

/-- An `A1`-style cell token: letters then digits. -/
def validCellToken (s : List Char) : Bool :=
  let letters := s.takeWhile (fun c => c.isAlpha)
  let digits := s.drop letters.length
  letters ≠ [] && digits ≠ [] && digits.all (fun c => c.isDigit)

/-- Validity of a range address accepted by the host at `sync` (optionally
sheet-qualified, single cell or `start:end`). -/
def validA1Address (s : String) : Bool :=
  let cs := match splitFirst ['!'] s.data with
    | some (_, rest) => rest
    | none => s.data
  match splitFirst [':'] cs with
  | some (l, r) => validCellToken l && validCellToken r
  | none => validCellToken cs

/-- Queue mutations through `sheet.getRange(arg)`: `getRange` itself never
throws; with a usable address the mutations are queued against it, and with
an unusable one the queued work is recorded as an `invalidRange` call that
fails the batch at `sync`. -/
def onRange (v : Option JsonValue) (k : String → List MutCall) : List MutCall :=
  match v with
  | some (.str s) => if validA1Address s then k s else [.invalidRange (some (.str s))]
  | other => [.invalidRange other]

/-- Queue mutations through `worksheets.getItem(arg)`: likewise deferred —
a non-string argument becomes an `invalidSheetItem` call that fails at
`sync`. -/
def onSheetItem (v : Option JsonValue) (k : String → List MutCall) : List MutCall :=
  match v with
  | some (.str s) => k s
  | other => [.invalidSheetItem other]

/-- The body of the executor's `switch` for one operation: the host mutations
it queues, or the synchronous JavaScript error it raises (only the `format`
case can raise one, reading `op.format.bold` off a missing/null `format`
object).  Unknown action names fall through the `switch` and queue nothing. -/
def applyOpRaw (op : JsonValue) : Except String (List MutCall) :=
  let action := getField op "action"
  if action = some (.str "setCellValue") then
    .ok (onRange (getField op "address") (fun a => [.setValues a (getField op "value")]))
  else if action = some (.str "setFormula") then
    .ok (onRange (getField op "address") (fun a => [.setFormulas a (getField op "formula")]))
  else if action = some (.str "format") then
    match getField op "format" with
    | none => .error "TypeError: cannot read properties of undefined"
    | some .null => .error "TypeError: cannot read properties of null"
    | some fmt =>
      .ok (onRange (getField op "address") (fun a =>
        (if getField fmt "bold" ≠ none then
            [MutCall.setFontBold a ((getField fmt "bold").getD .null)] else [])
          ++ (if jsTruthyOpt (getField fmt "fill") then
                [MutCall.setFillColor a ((getField fmt "fill").getD .null)] else [])
          ++ (if jsTruthyOpt (getField fmt "color") then
                [MutCall.setFontColor a ((getField fmt "color").getD .null)] else [])))
  else if action = some (.str "createTable") then
    .ok (onRange (getField op "address") (fun a =>
      MutCall.tableAdd a ::
        (if jsTruthyOpt (getField op "name") then
          [MutCall.tableSetName a ((getField op "name").getD .null)] else [])))
  else if action = some (.str "createChart") then
    .ok (onRange (getField op "address") (fun a =>
      MutCall.chartAdd (jsOr (getField op "chartType") (.str "ColumnClustered")) a "Auto" ::
        (if jsTruthyOpt (getField op "title") then
          [MutCall.chartSetTitle ((getField op "title").getD .null)] else [])))
  else if action = some (.str "createWorksheet") then
    .ok (MutCall.worksheetAdd (getField op "name") ::
      (if jsTruthyOpt (getField op "activate") then
        [MutCall.worksheetActivate (getField op "name")] else []))
  else if action = some (.str "activateWorksheet") then
    .ok (onSheetItem (getField op "name") (fun n => [.worksheetActivate (some (.str n))]))
  else if action = some (.str "deleteWorksheet") then
    .ok (onSheetItem (getField op "name") (fun n => [.worksheetDelete n]))
  else if action = some (.str "autoFit") then
    if jsTruthyOpt (getField op "address") then
      .ok (onRange (getField op "address") (fun a => [.autofitColumns (some a)]))
    else .ok [.autofitColumns none]
  else if action = some (.str "sortRange") then
    .ok (onRange (getField op "address") (fun a =>
      [.sortApply a (jsOr (getField op "key") (.num 0))
        (jsStrictNeFalse (getField op "ascending"))
        (jsOr (getField op "matchCase") (.bool false))
        (jsOr (getField op "hasHeaders") (.bool true))
        (jsOr (getField op "orientation") (.str "Rows"))]))
  else if action = some (.str "filterRange") then
    .ok (onRange (getField op "address") (fun a => [.autoFilterApply a]))
  else if action = some (.str "createPivotTable") then
    -- the case body's inner try/catch only sees synchronous errors; the
    -- queued pivot work (and any bad source address) still fails at sync
    .ok (onRange (getField op "sourceAddress") (fun _ => [.pivotTableAdd op]))
  else if action = some (.str "insertRows") then
    .ok (onRange (getField op "address") (fun a => [.rangeInsert a "Down"]))
  else if action = some (.str "deleteRows") then
    .ok (onRange (getField op "address") (fun a => [.rangeDelete a "Up"]))
  else if action = some (.str "insertColumns") then
    .ok (onRange (getField op "address") (fun a => [.rangeInsert a "Right"]))
  else if action = some (.str "deleteColumns") then
    .ok (onRange (getField op "address") (fun a => [.rangeDelete a "Left"]))
  else if action = some (.str "renameWorksheet") then
    .ok (onSheetItem (match getField op "name" with
      | some v => if jsTruthy v then some v else getField op "oldName"
      | none => getField op "oldName") (fun t =>
        [.worksheetRename (.str t) (getField op "newName")]))
  else if action = some (.str "hideWorksheet") then
    .ok (onSheetItem (getField op "name") (fun n => [.worksheetSetVisibility n "Hidden"]))
  else if action = some (.str "unhideWorksheet") then
    .ok (onSheetItem (getField op "name") (fun n => [.worksheetSetVisibility n "Visible"]))
  else .ok []

/-- One iteration of the executor's `for` loop: the operation's own
`try`/`catch` turns a synchronously raised error into the
`console.error('Failed to execute operation <action> on <address>', e)` log
entry; queued (possibly invalid) mutations pass through untouched. -/
def opAttempt (op : JsonValue) : List MutCall :=
  match applyOpRaw op with
  | .ok calls => calls
  | .error _ =>
    [.logError ("Failed to execute operation " ++ jsTemplateOpt (getField op "action")
      ++ " on " ++ jsTemplateOpt (getField op "address"))]

/-- The whole `for (const op of operations)` loop. -/
def execLoop (ops : List JsonValue) : List MutCall := (ops.map opAttempt).flatten

/-- The host error a queued mutation produces when `context.sync()` processes
it (`none` for a valid mutation; console logs process nothing). -/
def mutCallError : MutCall → Option String
  | .invalidRange _ =>
    some "InvalidArgument: The argument is invalid or missing or has an incorrect format."
  | .invalidSheetItem _ => some "ItemNotFound: The requested resource doesn't exist."
  | _ => none

/-- Outcome of the trailing `context.sync()`: the batch succeeds when every
queued mutation is valid, and rejects with the first queued error otherwise —
this rejection happens after the loop, outside every per-operation
`try`/`catch`, and propagates out of `Excel.run` to the caller. -/
def syncResult (queued : List MutCall) : Except String Unit :=
  match queued.filterMap mutCallError with
  | [] => .ok ()
  | e :: _ => .error e

/-- A call to the spreadsheet host from `executeOperations`. -/
inductive HostCall where
  | getActiveWorksheet
  | host (c : MutCall)
  | sync
  | simulateLog (ops : List JsonValue)
deriving Repr, DecidableEq

/-- `ExcelService.executeOperations`: outside Excel, log the simulated batch;
inside Excel, fetch the active worksheet, attempt every operation in list
order, then issue the single `context.sync()`.  The first component is the
trace of host calls; the second is the batch's outcome — `Excel.run`'s
promise, which rejects when the sync rejects. -/
def executeOperations (excelAvailable : Bool) (ops : List JsonValue) :
    List HostCall × Except String Unit :=
  if excelAvailable then
    (HostCall.getActiveWorksheet :: ((execLoop ops).map HostCall.host ++ [HostCall.sync]),
     syncResult (execLoop ops))
  else ([HostCall.simulateLog ops], .ok ())

/-! ### `ExcelService.buildContextForLLM` (excelService.ts lines 196-248)

`buildContextForLLM` awaits `getWorkbookContext()` (a host read) and then
builds the context string purely from the returned snapshot; the embedding
takes the snapshot as the argument. -/

/-- The `SheetData` interface. -/
structure SheetData where
  name : String
  usedRange : String
  values : List (List JsonValue)
  formulas : List (List JsonValue)
  rowCount : Nat
  columnCount : Nat
deriving Repr, DecidableEq

/-- The `WorkbookContext` interface. -/
structure WorkbookContext where
  activeSheetName : String
  sheets : List String
  activeSheetData : Option SheetData
deriving Repr, DecidableEq

/-- The first two context lines (workbook header). -/
def contextHeaderStr (workbook : WorkbookContext) : String :=
  "CURRENT EXCEL WORKBOOK STATE:\n"
    ++ "Active Sheet: \"" ++ workbook.activeSheetName ++ "\"\n"
    ++ "Available Sheets: " ++ String.intercalate ", " workbook.sheets ++ "\n\n"

/-- The active-sheet header lines. -/
def sheetHeaderStr (data : SheetData) : String :=
  "ACTIVE SHEET DATA (" ++ data.usedRange ++ "):\n"
    ++ "Rows: " ++ toString data.rowCount ++ ", Columns: " ++ toString data.columnCount ++ "\n\n"

/-- The `for (let i = 0; i < maxRows; i++)` preview rows: row labels are
1-based positions, cells joined with `' | '`. -/
def renderRows (rows : List (List JsonValue)) : String :=
  String.join (rows.enum.map (fun p =>
    "Row " ++ toString (p.1 + 1) ++ ": " ++ jsJoinWith " | " p.2 ++ "\n"))

/-- The data-preview section (excelService.ts lines 209-223): at most 20 rows,
with the `... and N more rows` note when the sheet has more. -/
def dataPreview (values : List (List JsonValue)) : String :=
  if values.length > 0 then
    let maxRows := min values.length 20
    "Data Preview (first " ++ toString maxRows ++ " rows):\n"
      ++ renderRows (values.take maxRows)
      ++ (if values.length > maxRows then
            "... and " ++ toString (values.length - maxRows) ++ " more rows\n"
          else "")
  else ""

/-- Model of `String.prototype.startsWith` (the built-in `String.startsWith`
is byte-based and does not reduce in the kernel). -/
def strStartsWith (s pre : String) : Bool := pre.data.isPrefixOf s.data

/-- The formula scan (excelService.ts lines 226-234): every cell whose value
is a truthy string starting with `=`, labelled `<columnLetter><row>: <formula>`. -/
def formulaCells (formulas : List (List JsonValue)) : List String :=
  (formulas.enum.map (fun p =>
    p.2.enum.filterMap (fun q =>
      match q.2 with
      | .str s =>
        if s ≠ "" && strStartsWith s "=" then
          some (String.mk [Char.ofNat (65 + q.1)] ++ toString (p.1 + 1) ++ ": " ++ s)
        else none
      | _ => none))).flatten

/-- The formulas section (excelService.ts lines 236-244): at most the first
20 formula cells, with the `... and N more formulas` note when there are
more. -/
def formulaSection (formulas : List (List JsonValue)) : String :=
  let cells := formulaCells formulas
  if cells.length > 0 then
    "\nFORMULAS IN SHEET:\n"
      ++ String.join ((cells.take 20).map (fun f => "  " ++ f ++ "\n"))
      ++ (if cells.length > 20 then
            "  ... and " ++ toString (cells.length - 20) ++ " more formulas\n"
          else "")
  else ""

/-- `ExcelService.buildContextForLLM` applied to the workbook snapshot it
reads: header, then (when active-sheet data is present) the sheet header, the
bounded data preview and the bounded formulas list. -/
def buildContextForLLM (workbook : WorkbookContext) : String :=
  contextHeaderStr workbook ++
    match workbook.activeSheetData with
    | none => ""
    | some data => sheetHeaderStr data ++ dataPreview data.values ++ formulaSection data.formulas

/-! ## Claim theorems -/

/-- **C9**: for every message list passed to `saveMessages`, the persisted
list is exactly the most recent 50 entries: the serialized value stored under
the messages key is `JSON.stringify` of `messages.slice(-50)`, which is the
whole list when it has at most 50 entries, and the last 50 in order (a length-
50 suffix) when it has more. -/
theorem saveMessages_caps_last50 :
    ∀ (store : LocalStorage) (ms : List JsonValue),
      (saveMessages store ms).getItem messagesStorageKey
          = some (jsonStringify (.arr (jsSliceNeg 50 ms)))
      ∧ (ms.length ≤ 50 → jsSliceNeg 50 ms = ms)
      ∧ (50 < ms.length →
          (jsSliceNeg 50 ms).length = 50
          ∧ ms.take (ms.length - 50) ++ jsSliceNeg 50 ms = ms) := by
  intro store ms
  refine ⟨?_, ?_, ?_⟩
  · simp [saveMessages, LocalStorage.setItem, LocalStorage.getItem]
  · intro h
    simp [jsSliceNeg, Nat.sub_eq_zero_of_le h]
  · intro h
    refine ⟨?_, ?_⟩
    · simp only [jsSliceNeg, List.length_drop]
      omega
    · simp [jsSliceNeg, List.take_append_drop]

def msgs3 : List JsonValue := [JsonValue.str "a", JsonValue.str "b", JsonValue.str "c"]

def msgs52 : List JsonValue := List.replicate 52 (JsonValue.num 7)

/-- Witness for C9 at a 3-entry list and a 52-entry list. -/
theorem saveMessages_caps_last50_witness :
    (saveMessages ⟨[]⟩ msgs3).getItem messagesStorageKey
        = some (jsonStringify (.arr (jsSliceNeg 50 msgs3)))
    ∧ jsSliceNeg 50 msgs3 = msgs3
    ∧ (jsSliceNeg 50 msgs52).length = 50
    ∧ msgs52.take (msgs52.length - 50) ++ jsSliceNeg 50 msgs52 = msgs52 :=
  ⟨(saveMessages_caps_last50 ⟨[]⟩ msgs3).1,
   (saveMessages_caps_last50 ⟨[]⟩ msgs3).2.1 (by decide),
   ((saveMessages_caps_last50 ⟨[]⟩ msgs52).2.2 (by decide)).1,
   ((saveMessages_caps_last50 ⟨[]⟩ msgs52).2.2 (by decide)).2⟩

/-- **C10 counterexample**: the claim quantifies over *every* Latin-1 key,
but the empty key does not round-trip: `btoa('') = ''` is stored, and
`getApiKey`'s `if (!encoded) return null` treats the stored empty string as
missing, returning `null` instead of the key. -/
theorem apiKey_roundtrip_empty_countereg :
    getApiKey (saveApiKey ⟨[]⟩ []) = none
    ∧ getApiKey (saveApiKey ⟨[]⟩ []) ≠ some ([] : List Nat) := by
  exact ⟨by decide, by decide⟩

/-- **C10 (amended)**: for every *nonempty* Latin-1 key, `getApiKey` after
`saveApiKey` returns exactly the key, and the stored form is the base64
encoding of the key, not the raw key. -/
theorem apiKey_roundtrip (store : LocalStorage) (key : List Nat)
    (hne : key ≠ []) (hlat : ∀ b ∈ key, b < 256) :
    getApiKey (saveApiKey store key) = some key
    ∧ (saveApiKey store key).getItem apiKeyStorageKey = some (String.mk (btoaBytes key)) := by
  have hall : key.all (fun b => decide (b < 256)) = true := by
    rw [List.all_eq_true]
    intro b hb
    exact decide_eq_true (hlat b hb)
  have henc : btoaBytes key ≠ [] := by
    cases key with
    | nil => exact absurd rfl hne
    | cons b0 k =>
      cases k with
      | nil => simp [btoaBytes]
      | cons b1 k2 =>
        cases k2 with
        | nil => simp [btoaBytes]
        | cons b2 rest => simp [btoaBytes]
  have hstr : String.mk (btoaBytes key) ≠ "" := by
    intro hcontra
    exact henc (congrArg String.data hcontra)
  have hsave : saveApiKey store key
      = store.setItem apiKeyStorageKey (String.mk (btoaBytes key)) := by
    simp [saveApiKey, hall]
  refine ⟨?_, ?_⟩
  · rw [hsave]
    have hget : (store.setItem apiKeyStorageKey (String.mk (btoaBytes key))).getItem
        apiKeyStorageKey = some (String.mk (btoaBytes key)) := by
      simp [LocalStorage.getItem, LocalStorage.setItem]
    simp only [getApiKey, hget]
    rw [if_neg hstr]
    simp [atobChars_btoaBytes key hlat]
  · rw [hsave]
    simp [LocalStorage.getItem, LocalStorage.setItem]

/-- Witness for C10 (amended) at the key `[104, 101, 121]` (`"hey"`). -/
theorem apiKey_roundtrip_witness :
    getApiKey (saveApiKey ⟨[]⟩ [104, 101, 121]) = some [104, 101, 121]
    ∧ (saveApiKey ⟨[]⟩ [104, 101, 121]).getItem apiKeyStorageKey
        = some (String.mk (btoaBytes [104, 101, 121])) :=
  ⟨(apiKey_roundtrip ⟨[]⟩ [104, 101, 121] (by decide) (by decide)).1,
   (apiKey_roundtrip ⟨[]⟩ [104, 101, 121] (by decide) (by decide)).2⟩

/-- **C4**: when the settings store holds no API key, `chat` fails with the
missing-credential error and the list of issued network requests is empty —
the throw happens before any provider dispatch. -/
theorem chat_missing_key (settings : Settings) (messages : List ChatMessage)
    (excelContext : Option String) (reply : ProviderReply)
    (h : settings.apiKey = none) :
    chat settings messages excelContext reply = (.error missingKeyMsg, []) := by
  simp [chat, h]

/-- Witness for C4 at concrete empty settings. -/
theorem chat_missing_key_witness :
    chat ⟨none, "openrouter", "meta-llama/llama-3.1-8b-instruct:free"⟩
        [⟨"user", "Set A1 to 5"⟩] none ⟨true, 200, none, "hello", none⟩
      = (.error missingKeyMsg, []) :=
  chat_missing_key _ _ _ _ rfl

/-- **C8**: on a non-success HTTP status, each of the three provider adapters
produces a single error message: the backend-supplied error message field when
a (nonempty) one is present, else the generic `<provider> API error: <status>`
fallback. -/
theorem provider_error_messages :
    ∀ (messages : List ChatMessage) (apiKey model : String)
      (excelContext : Option String) (reply : ProviderReply), reply.ok = false →
      (∀ m, reply.errorMessage = some m → m ≠ "" →
        (callOpenRouter messages apiKey model reply).2 = .error m
        ∧ (callGemini messages apiKey excelContext reply).2 = .error m
        ∧ (callHuggingFace messages apiKey excelContext reply).2 = .error m)
      ∧ (reply.errorMessage = none →
        (callOpenRouter messages apiKey model reply).2
            = .error ("OpenRouter API error: " ++ toString reply.status)
        ∧ (callGemini messages apiKey excelContext reply).2
            = .error ("Gemini API error: " ++ toString reply.status)
        ∧ (callHuggingFace messages apiKey excelContext reply).2
            = .error ("HuggingFace API error: " ++ toString reply.status)) := by
  intro ms k m ctx reply hok
  constructor
  · intro msg hmsg hne
    refine ⟨?_, ?_, ?_⟩ <;>
      simp [callOpenRouter, callGemini, callHuggingFace, hok, backendMessageOr, hmsg, hne]
  · intro hnone
    refine ⟨?_, ?_, ?_⟩ <;>
      simp [callOpenRouter, callGemini, callHuggingFace, hok, backendMessageOr, hnone]

def errReplyWithMsg : ProviderReply := ⟨false, 401, some "Invalid API key", "", none⟩

def errReplyNoMsg : ProviderReply := ⟨false, 502, none, "", none⟩

/-- Witness for C8 at a backend-supplied message and at a bare status. -/
theorem provider_error_messages_witness :
    (callOpenRouter [] "k" "m" errReplyWithMsg).2 = .error "Invalid API key"
    ∧ (callGemini [] "k" none errReplyWithMsg).2 = .error "Invalid API key"
    ∧ (callHuggingFace [] "k" none errReplyWithMsg).2 = .error "Invalid API key"
    ∧ (callOpenRouter [] "k" "m" errReplyNoMsg).2 = .error "OpenRouter API error: 502"
    ∧ (callGemini [] "k" none errReplyNoMsg).2 = .error "Gemini API error: 502"
    ∧ (callHuggingFace [] "k" none errReplyNoMsg).2 = .error "HuggingFace API error: 502" := by
  have h1 := (provider_error_messages [] "k" "m" none errReplyWithMsg rfl).1
    "Invalid API key" rfl (by decide)
  have h2 := (provider_error_messages [] "k" "m" none errReplyNoMsg rfl).2 rfl
  exact ⟨h1.1, h1.2.1, h1.2.2, h2.1.trans (by decide), h2.2.1.trans (by decide),
    h2.2.2.trans (by decide)⟩

/-- Appending operation lists composes the executor's loop trace. -/
theorem execLoop_append (xs ys : List JsonValue) :
    execLoop (xs ++ ys) = execLoop xs ++ execLoop ys := by
  simp [execLoop]

/-- The live branch of `executeOperations`, trace component. -/
theorem executeOperations_live_fst (ops : List JsonValue) :
    (executeOperations true ops).1
      = HostCall.getActiveWorksheet :: ((execLoop ops).map HostCall.host ++ [HostCall.sync]) := rfl

/-- The live branch of `executeOperations`, batch-outcome component. -/
theorem executeOperations_live_snd (ops : List JsonValue) :
    (executeOperations true ops).2 = syncResult (execLoop ops) := rfl

/-- A `console.error` entry queued in the middle of a batch contributes no
host error at `sync`. -/
theorem syncResult_logError_middle (xs ys : List MutCall) (m : String) :
    syncResult ((xs ++ [MutCall.logError m]) ++ ys) = syncResult (xs ++ ys) := by
  simp [syncResult, List.filterMap_append, mutCallError]

def wOpBefore : JsonValue :=
  .obj [("action", .str "setCellValue"), ("address", .str "A1"), ("value", .str "5")]

def wOpBad : JsonValue :=
  .obj [("action", .str "setCellValue"), ("address", .str "not an address"), ("value", .num 1)]

def wOpUnknown : JsonValue := .obj [("action", .str "frobnicate")]

def wOpFormatBad : JsonValue := .obj [("action", .str "format"), ("address", .str "A1:C1")]

def wOpAfter : JsonValue :=
  .obj [("action", .str "setFormula"), ("address", .str "B2"), ("formula", .str "=A1*2")]

/-- **C2 counterexample**: a malformed-address operation surrounded by valid
operations.  The loop raises nothing for it (no `console.error` entry — its
queued mutation is merely invalid), and the single batch `context.sync()`
rejects with the host `InvalidArgument` error, outside every per-operation
`try`/`catch`: the exception escapes `executeOperations` to the caller,
contradicting the claim that a malformed-address error is caught inside the
scope of that operation and that no exception escapes the batch. -/
theorem executeOperations_malformed_escape_countereg :
    (executeOperations true [wOpBefore, wOpBad, wOpAfter]).2
        = .error "InvalidArgument: The argument is invalid or missing or has an incorrect format."
    ∧ (executeOperations true [wOpBefore, wOpBad, wOpAfter]).2 ≠ .ok ()
    ∧ (executeOperations true [wOpBefore, wOpBad, wOpAfter]).1
        = HostCall.getActiveWorksheet ::
            ([MutCall.setValues "A1" (some (.str "5")),
              MutCall.invalidRange (some (.str "not an address")),
              MutCall.setFormulas "B2" (some (.str "=A1*2"))].map HostCall.host
              ++ [HostCall.sync]) := by
  exact ⟨by decide, by decide, by decide⟩

/-- **C2 (amended)**: failure isolation holds exactly for errors raised
synchronously inside the loop.  First conjunct: when operation `b` raises a
synchronous error (the missing-`format` `TypeError`), the error is converted —
inside the loop iteration of `b` itself — into the `console.error` log entry, every
surrounding operation still contributes its queued mutations unchanged, and
the batch outcome is as if `b` were absent (nothing escapes because of `b`).
Second conjunct: an operation whose `switch` case queues nothing (in
particular an unknown action name) is silently skipped, likewise.  Third
conjunct: the batch promise resolves successfully precisely when every
queued mutation is valid — an invalid queued mutation (e.g. a malformed range
address) rejects the single `sync` after the loop and escapes the batch. -/
theorem executeOperations_sync_isolation :
    (∀ (pre post : List JsonValue) (b : JsonValue) (e : String),
        applyOpRaw b = .error e →
        (executeOperations true (pre ++ b :: post)).1
          = HostCall.getActiveWorksheet ::
              ((execLoop pre
                ++ [MutCall.logError ("Failed to execute operation "
                      ++ jsTemplateOpt (getField b "action") ++ " on "
                      ++ jsTemplateOpt (getField b "address"))]
                ++ execLoop post).map HostCall.host ++ [HostCall.sync])
        ∧ (executeOperations true (pre ++ b :: post)).2
            = syncResult (execLoop pre ++ execLoop post))
    ∧ (∀ (pre post : List JsonValue) (b : JsonValue),
        applyOpRaw b = .ok [] →
        (executeOperations true (pre ++ b :: post)).1
          = HostCall.getActiveWorksheet ::
              ((execLoop pre ++ execLoop post).map HostCall.host ++ [HostCall.sync])
        ∧ (executeOperations true (pre ++ b :: post)).2
            = syncResult (execLoop pre ++ execLoop post))
    ∧ (∀ ops : List JsonValue,
        (executeOperations true ops).2 = .ok ()
          ↔ ∀ c ∈ execLoop ops, mutCallError c = none) := by
  refine ⟨?_, ?_, ?_⟩
  · intro pre post b e he
    have hb : execLoop [b] = [MutCall.logError ("Failed to execute operation "
        ++ jsTemplateOpt (getField b "action") ++ " on "
        ++ jsTemplateOpt (getField b "address"))] := by
      simp [execLoop, opAttempt, he]
    have hsplit : pre ++ b :: post = pre ++ [b] ++ post := by simp
    rw [hsplit, executeOperations_live_fst, executeOperations_live_snd,
      execLoop_append, execLoop_append, hb]
    exact ⟨rfl, syncResult_logError_middle _ _ _⟩
  · intro pre post b hb
    have hb1 : execLoop [b] = [] := by simp [execLoop, opAttempt, hb]
    have hsplit : pre ++ b :: post = pre ++ [b] ++ post := by simp
    rw [hsplit, executeOperations_live_fst, executeOperations_live_snd,
      execLoop_append, execLoop_append, hb1, List.append_nil]
    exact ⟨rfl, rfl⟩
  · intro ops
    rw [executeOperations_live_snd]
    constructor
    · intro h c hc
      cases hfm : (execLoop ops).filterMap mutCallError with
      | nil => exact List.filterMap_eq_nil_iff.mp hfm c hc
      | cons e rest =>
        rw [syncResult, hfm] at h
        cases h
    · intro h
      have hfm : (execLoop ops).filterMap mutCallError = [] := List.filterMap_eq_nil_iff.mpr h
      rw [syncResult, hfm]

/-- Witness for C2 (amended): a missing-`format` `TypeError` operation and an
unknown-action operation, each surrounded by valid operations — the
surrounding operations are queued, the batch ends with its sync, and its
promise resolves successfully. -/
theorem executeOperations_sync_isolation_witness :
    (executeOperations true ([wOpBefore] ++ wOpFormatBad :: [wOpAfter])).1
        = HostCall.getActiveWorksheet ::
            ([MutCall.setValues "A1" (some (.str "5")),
              MutCall.logError "Failed to execute operation format on A1:C1",
              MutCall.setFormulas "B2" (some (.str "=A1*2"))].map HostCall.host
              ++ [HostCall.sync])
    ∧ (executeOperations true ([wOpBefore] ++ wOpFormatBad :: [wOpAfter])).2 = .ok ()
    ∧ (executeOperations true ([wOpBefore] ++ wOpUnknown :: [wOpAfter])).1
        = HostCall.getActiveWorksheet ::
            ([MutCall.setValues "A1" (some (.str "5")),
              MutCall.setFormulas "B2" (some (.str "=A1*2"))].map HostCall.host
              ++ [HostCall.sync])
    ∧ (executeOperations true ([wOpBefore] ++ wOpUnknown :: [wOpAfter])).2 = .ok () := by
  have h1 := executeOperations_sync_isolation.1 [wOpBefore] [wOpAfter] wOpFormatBad
    "TypeError: cannot read properties of undefined" (by decide)
  have h2 := executeOperations_sync_isolation.2.1 [wOpBefore] [wOpAfter] wOpUnknown (by decide)
  exact ⟨h1.1.trans (by decide), h1.2.trans (by decide),
    h2.1.trans (by decide), h2.2.trans (by decide)⟩

/-- **C7**: a live-host invocation of `executeOperations` issues exactly one
`sync`, and it comes after every per-operation host calls: the trace is the
initial worksheet read, then the queued loop mutations (which by
construction contain no synchronization), then the single trailing `sync`. -/
theorem executeOperations_single_sync (ops : List JsonValue) :
    (executeOperations true ops).1
        = HostCall.getActiveWorksheet :: ((execLoop ops).map HostCall.host ++ [HostCall.sync])
    ∧ (executeOperations true ops).1.count HostCall.sync = 1
    ∧ (HostCall.getActiveWorksheet :: (execLoop ops).map HostCall.host).count HostCall.sync
        = 0 := by
  have h0 : ((execLoop ops).map HostCall.host).count HostCall.sync = 0 := by
    rw [List.count_eq_zero]
    intro hmem
    rw [List.mem_map] at hmem
    obtain ⟨c, _, hc⟩ := hmem
    cases hc
  refine ⟨executeOperations_live_fst ops, ?_, ?_⟩
  · rw [executeOperations_live_fst]
    simp [List.count_cons, List.count_append, h0]
  · simp [List.count_cons, h0]

/-- **C6**: in the executor's `sortRange` case, an absent `key` field defaults
the sort column index to 0 (`op.key || 0`), and an absent `ascending` field
defaults the direction to ascending (`op.ascending !== false`); the remaining
sort parameters keep their own defaults. -/
theorem sortRange_defaults (op : JsonValue) (a : String)
    (hact : getField op "action" = some (.str "sortRange"))
    (haddr : getField op "address" = some (.str a))
    (hval : validA1Address a = true) :
    (getField op "key" = none →
      applyOpRaw op = .ok [.sortApply a (.num 0)
        (jsStrictNeFalse (getField op "ascending"))
        (jsOr (getField op "matchCase") (.bool false))
        (jsOr (getField op "hasHeaders") (.bool true))
        (jsOr (getField op "orientation") (.str "Rows"))])
    ∧ (getField op "ascending" = none →
      applyOpRaw op = .ok [.sortApply a (jsOr (getField op "key") (.num 0)) true
        (jsOr (getField op "matchCase") (.bool false))
        (jsOr (getField op "hasHeaders") (.bool true))
        (jsOr (getField op "orientation") (.str "Rows"))]) := by
  constructor
  · intro hkey
    simp [applyOpRaw, hact, haddr, onRange, hval, hkey, jsOr]
  · intro hasc
    simp [applyOpRaw, hact, haddr, onRange, hval, hasc, jsStrictNeFalse]

def sortOpSpec : JsonValue := .obj [("action", .str "sortRange"), ("address", .str "A1:B10")]

/-- Witness for C6 at `{action:"sortRange", address:"A1:B10"}` (the spec's own
example, with both `key` and `ascending` absent): column index 0, ascending. -/
theorem sortRange_defaults_witness :
    applyOpRaw sortOpSpec
      = .ok [.sortApply "A1:B10" (.num 0) true (.bool false) (.bool true) (.str "Rows")] :=
  ((sortRange_defaults sortOpSpec "A1:B10" (by decide) (by decide) (by decide)).1
    (by decide)).trans (by decide)

/-- `s ++ "" = s` for `String` (needed to drop an empty truncation note). -/
theorem string_append_empty (s : String) : s ++ "" = s :=
  congrArg String.mk (List.append_nil s.data)

/-- **C3**: `buildContextForLLM` bounds its previews at 20.  (1) With exactly
25 data rows the context renders exactly the first 20 rows and appends the
`... and 5 more rows` note.  (2) With between 1 and 20 data rows the preview
renders every row and appends no note.  (3) With more than 20 formula cells
the formulas section lists exactly the first 20 and appends the
`... and N more formulas` note.  (4) With between 1 and 20 formula cells it
lists them all and appends no note. -/
theorem buildContextForLLM_truncates_at_20 :
    (∀ (w : WorkbookContext) (d : SheetData),
        w.activeSheetData = some d → d.values.length = 25 →
        buildContextForLLM w
          = contextHeaderStr w
            ++ (sheetHeaderStr d
                ++ ("Data Preview (first 20 rows):\n" ++ renderRows (d.values.take 20)
                    ++ "... and 5 more rows\n")
                ++ formulaSection d.formulas))
    ∧ (∀ values : List (List JsonValue), 0 < values.length → values.length ≤ 20 →
        dataPreview values
          = "Data Preview (first " ++ toString values.length ++ " rows):\n"
            ++ renderRows values)
    ∧ (∀ formulas : List (List JsonValue), 20 < (formulaCells formulas).length →
        formulaSection formulas
          = "\nFORMULAS IN SHEET:\n"
            ++ String.join (((formulaCells formulas).take 20).map (fun f => "  " ++ f ++ "\n"))
            ++ ("  ... and " ++ toString ((formulaCells formulas).length - 20)
                ++ " more formulas\n"))
    ∧ (∀ formulas : List (List JsonValue), 0 < (formulaCells formulas).length →
        (formulaCells formulas).length ≤ 20 →
        formulaSection formulas
          = "\nFORMULAS IN SHEET:\n"
            ++ String.join ((formulaCells formulas).map (fun f => "  " ++ f ++ "\n"))) := by
  refine ⟨?_, ?_, ?_, ?_⟩
  · intro w d hd h25
    have hdp : dataPreview d.values
        = "Data Preview (first 20 rows):\n" ++ renderRows (d.values.take 20)
          ++ "... and 5 more rows\n" := by
      simp only [dataPreview, h25]
      norm_num
      rfl
    simp only [buildContextForLLM, hd, hdp]
  · intro values h1 h2
    have hmin : min values.length 20 = values.length := min_eq_left h2
    simp only [dataPreview, hmin, List.take_length]
    rw [if_pos h1, if_neg (lt_irrefl values.length), string_append_empty]
  · intro formulas h
    simp only [formulaSection]
    rw [if_pos (by omega : (formulaCells formulas).length > 0), if_pos h]
  · intro formulas h1 h2
    simp only [formulaSection]
    rw [if_pos h1, if_neg (by omega : ¬ (formulaCells formulas).length > 20),
      List.take_of_length_le h2]
    simp

def vals25 : List (List JsonValue) := List.replicate 25 [JsonValue.num 1]

def sheet25 : SheetData :=
  { name := "Sheet1", usedRange := "A1:A25", values := vals25, formulas := []
    rowCount := 25, columnCount := 1 }

def wb25 : WorkbookContext :=
  { activeSheetName := "Sheet1", sheets := ["Sheet1"], activeSheetData := some sheet25 }

def vals5 : List (List JsonValue) := List.replicate 5 [JsonValue.str "x"]

def formulas21 : List (List JsonValue) := List.replicate 21 [JsonValue.str "=A1"]

def formulas2 : List (List JsonValue) := [[JsonValue.str "=A1"], [JsonValue.str "=B1"]]

/-- Witness for C3: a 25-row sheet (truncated preview plus `...and 5 more
rows`), a 5-row sheet (no note), 21 formula cells (truncated plus note) and
2 formula cells (no note). -/
theorem buildContextForLLM_truncates_at_20_witness :
    buildContextForLLM wb25
      = contextHeaderStr wb25
        ++ (sheetHeaderStr sheet25
            ++ ("Data Preview (first 20 rows):\n" ++ renderRows (vals25.take 20)
                ++ "... and 5 more rows\n")
            ++ formulaSection sheet25.formulas)
    ∧ dataPreview vals5
        = "Data Preview (first " ++ toString vals5.length ++ " rows):\n" ++ renderRows vals5
    ∧ formulaSection formulas21
        = "\nFORMULAS IN SHEET:\n"
          ++ String.join (((formulaCells formulas21).take 20).map (fun f => "  " ++ f ++ "\n"))
          ++ ("  ... and " ++ toString ((formulaCells formulas21).length - 20)
              ++ " more formulas\n")
    ∧ formulaSection formulas2
        = "\nFORMULAS IN SHEET:\n"
          ++ String.join ((formulaCells formulas2).map (fun f => "  " ++ f ++ "\n")) := by
  refine ⟨?_, ?_, ?_, ?_⟩
  · exact buildContextForLLM_truncates_at_20.1 wb25 sheet25 rfl (by decide)
  · exact buildContextForLLM_truncates_at_20.2.1 vals5 (by decide) (by decide)
  · exact buildContextForLLM_truncates_at_20.2.2.1 formulas21 (by decide)
  · exact buildContextForLLM_truncates_at_20.2.2.2 formulas2 (by decide) (by decide)

def nativeOpC1 : JsonValue :=
  .obj [("action", .str "setCellValue"), ("address", .str "A1"), ("value", .str "5")]

def fencedOpC1 : JsonValue :=
  .obj [("action", .str "setFormula"), ("address", .str "B1"), ("formula", .str "=SUM(A1:A10)")]

/-- A provider response carrying both a native tool invocation (operations
`[nativeOpC1]`) and an embedded fenced `excel-json` block carrying the
different operation list `[fencedOpC1]`. -/
def respC1 : LLMResponse :=
  { text := "Plan: ```excel-json \x7b\"operations\": [\x7b\"action\": \"setFormula\", \"address\": \"B1\", \"formula\": \"=SUM(A1:A10)\"\x7d]\x7d``` done"
    toolCalls := some [{ name := "execute_excel_operations"
                         arguments := .obj [("operations", .arr [nativeOpC1])] }] }

/-- **C1 counterexample**: on a response with both native tool invocations and
a fenced block carrying different operations, the pending batch is the fenced
block's operations, not the native invocations' operations — the fallback's
`setPendingActions(actionsData.operations)` overwrites the batch set from the
tool calls, so the claimed native-precedence rule fails. -/
theorem sendMessageNormalize_native_precedence_countereg :
    (sendMessageNormalize respC1).pending = .arr [fencedOpC1]
    ∧ (sendMessageNormalize respC1).pending ≠ .arr [nativeOpC1] := by
  exact ⟨by decide, by decide⟩

/-- **C1 (amended)**: when a response carries both native tool-invocation
operations and a fenced block whose parsed `operations` field is truthy, the
fenced block's operations win: they alone become the pending batch (exactly
one source's operations, never a concatenation), and the displayed text is the
original text with the fenced block stripped and trimmed (or the canned
message when stripping leaves nothing). -/
theorem sendMessageNormalize_fenced_overrides_native
    (resp : LLMResponse) (tcs : List ToolCall) (d opsV : JsonValue)
    (htc : resp.toolCalls = some tcs)
    (hne : tcs.flatMap toolCallContribution ≠ [])
    (htxt : resp.text ≠ "")
    (hex : extractExcelActions resp.text = some d)
    (hops : getField d "operations" = some opsV)
    (htru : jsTruthy opsV = true) :
    (sendMessageNormalize resp).pending = opsV
    ∧ (sendMessageNormalize resp).content
        = (if jsTrim (stripExcelJson resp.text) = "" then preparedMsgFence
           else jsTrim (stripExcelJson resp.text)) := by
  have htlen : tcs.length > 0 := by
    cases tcs with
    | nil => simp [List.flatMap] at hne
    | cons a l => simp
  have hnat : (tcs.flatMap toolCallContribution).length > 0 := List.length_pos.mpr hne
  simp only [sendMessageNormalize, htc, Option.getD_some, Option.isSome_some]
  rw [if_pos ⟨trivial, htlen, hnat⟩, if_neg htxt]
  simp only [hex, hops, htru, if_true]
  exact ⟨trivial, trivial⟩

/-- Witness for C1 (amended) at `respC1`: the fenced operation list becomes
the batch and the block is stripped from the displayed text. -/
theorem sendMessageNormalize_fenced_overrides_native_witness :
    (sendMessageNormalize respC1).pending
        = .arr [JsonValue.obj [("action", .str "setFormula"), ("address", .str "B1"),
            ("formula", .str "=SUM(A1:A10)")]]
    ∧ (sendMessageNormalize respC1).content = "Plan:  done" := by
  have h := sendMessageNormalize_fenced_overrides_native respC1 _
    (.obj [("operations", .arr [fencedOpC1])]) (.arr [fencedOpC1])
    rfl (by decide) (by decide) (by decide) (by decide) (by decide)
  exact ⟨h.1.trans (by decide), h.2.trans (by decide)⟩

/-- A free-text response whose fenced `excel-json` block holds malformed
JSON. -/
def respC5m : LLMResponse :=
  { text := "Check: ```excel-json not-json``` ok", toolCalls := none }

/-- A free-text response with a well-formed `{\x22operations\x22: [...]}`
block. -/
def respC5g : LLMResponse :=
  { text := "Sure. ```excel-json\n\x7b\"operations\": [\x7b\"action\": \"setCellValue\", \"address\": \"A1\", \"value\": \"5\"\x7d]\x7d\n``` Applied."
    toolCalls := none }

/-- **C5 counterexample**: on a malformed fenced block, normalization does
yield zero operations, but the displayed text is the *original* text — the
fenced block is still present, because the stripping `replace` only runs
inside the branch where parsing succeeded, contradicting the claim that the
display text still has the block removed. -/
theorem sendMessageNormalize_malformed_strip_countereg :
    (sendMessageNormalize respC5m).pending = .arr []
    ∧ (sendMessageNormalize respC5m).content = respC5m.text
    ∧ containsSub "```excel-json" (sendMessageNormalize respC5m).content = true
    ∧ (sendMessageNormalize respC5m).content ≠ jsTrim (stripExcelJson respC5m.text) := by
  exact ⟨by decide, by decide, by decide, by decide⟩

/-- **C5 (amended)**: (1) when the fenced-block extraction yields nothing
(no block, or an unparsable one), normalization returns the original text
unchanged with zero operations — the response as a whole does not fail;
(2) a fenced block whose (nonempty) content fails `JSON.parse` makes the
extraction yield nothing; (3) for a well-formed block whose parsed
`operations` field is truthy, those operations become the pending batch and
the fenced block is stripped (and trimmed) from the displayed text. -/
theorem sendMessageNormalize_freeText :
    (∀ (resp : LLMResponse), resp.toolCalls = none →
        extractExcelActions resp.text = none →
        sendMessageNormalize resp = { content := resp.text, pending := .arr [] })
    ∧ (∀ (cs : String) (pre rest inner post : List Char),
        splitFirst fenceOpen cs.data = some (pre, rest) →
        splitFirst fenceClose (rest.dropWhile isJsWs) = some (inner, post) →
        inner ≠ [] → jsonParseChars inner = none →
        extractExcelActions cs = none)
    ∧ (∀ (resp : LLMResponse) (d opsV : JsonValue), resp.toolCalls = none →
        extractExcelActions resp.text = some d →
        getField d "operations" = some opsV → jsTruthy opsV = true →
        (sendMessageNormalize resp).pending = opsV
        ∧ (sendMessageNormalize resp).content
            = (if jsTrim (stripExcelJson resp.text) = "" then preparedMsgFence
               else jsTrim (stripExcelJson resp.text))) := by
  refine ⟨?_, ?_, ?_⟩
  · intro resp htc hex
    simp only [sendMessageNormalize, htc, Option.getD_none, Option.isSome_none]
    rw [if_neg (by simp)]
    simp only [hex]
  · intro cs pre rest inner post h1 h2 hinner hparse
    simp only [extractExcelActions, h1, h2]
    rw [if_neg hinner]
    exact hparse
  · intro resp d opsV htc hex hops htru
    simp only [sendMessageNormalize, htc, Option.getD_none, Option.isSome_none]
    rw [if_neg (by simp)]
    simp only [hex, hops, htru, if_true]
    exact ⟨trivial, trivial⟩

/-- Witness for C5 (amended): the malformed-block response yields zero
operations with the text unchanged (via the concrete split of its fence), and
the well-formed response yields one `setCellValue` operation with the block
stripped. -/
theorem sendMessageNormalize_freeText_witness :
    extractExcelActions respC5m.text = none
    ∧ sendMessageNormalize respC5m = { content := respC5m.text, pending := .arr [] }
    ∧ (sendMessageNormalize respC5g).pending
        = .arr [JsonValue.obj [("action", .str "setCellValue"), ("address", .str "A1"),
            ("value", .str "5")]]
    ∧ (sendMessageNormalize respC5g).content = "Sure.  Applied." := by
  have hex : extractExcelActions respC5m.text = none :=
    sendMessageNormalize_freeText.2.1 respC5m.text "Check: ".data " not-json``` ok".data
      "not-json".data " ok".data (by decide) (by decide) (by decide) (by decide)
  have h1 := sendMessageNormalize_freeText.1 respC5m rfl hex
  have h3 := sendMessageNormalize_freeText.2.2 respC5g
    (.obj [("operations", .arr [.obj [("action", .str "setCellValue"),
      ("address", .str "A1"), ("value", .str "5")]])])
    (.arr [.obj [("action", .str "setCellValue"), ("address", .str "A1"),
      ("value", .str "5")]])
    rfl (by decide) (by decide) (by decide)
  exact ⟨hex, h1, h3.1, h3.2.trans (by decide)⟩
